import Mathlib

/-!
# Verification of `Drive.Update` (src/drive/update.go)

A shallow embedding of the `Update` method of the gdrive `drive` package.
The method is effectful: it opens a file, writes notices to `args.Out`, and
issues remote calls.  The embedding makes every effect explicit: running
`Update` against an environment `Env` (the collaborators the method calls
into) gives an `Outcome`, the ordered trace of effects together with the way
the run ends: a returned `nil`, a returned `error`, or a panic.
-/

namespace Drive

/-! ## Data model -/

/-- A Go `error` value as `Update` observes it: `text` is what `%s` prints
(`err.Error()`), `tag` stands for the identity of the value, which a helper
such as `isTimeoutError` may inspect. -/
structure GoError where
  text : String
  tag : Nat
deriving DecidableEq, Repr

/-- The fields of `drive.File` that `Update` reads or writes. -/
structure File where
  Id : String := ""
  Name : String := ""
  MimeType : String := ""
  Description : String := ""
  Parents : List String := []
  Size : Int := 0
deriving DecidableEq, Repr

/-- `UpdateArgs` (update.go, lines 13-25).  The two writers `Out` and
`Progress` are sinks: `Out` is taken to be a writer that accepts every write,
and the writes to it appear in the trace; `Progress` is only handed on to the
progress reader.  `Timeout` is a `time.Duration`, an `int64` count of
nanoseconds. -/
structure UpdateArgs where
  Id : String := ""
  Path : String := ""
  Name : String := ""
  Description : String := ""
  Parents : List String := []
  Mime : String := ""
  Recursive : Bool := false
  ChunkSize : Int := 0
  Timeout : Int := 0
deriving DecidableEq, Repr

/-- What `openFile` gives back besides the handle: the `os.FileInfo` name and
size. -/
structure FileInfo where
  name : String
  size : Int
deriving DecidableEq, Repr

/-- The content stream attached by `call.Context(ctx).Media(reader, chunkSize)`:
the source file wrapped in the progress reader (with the file size) and then
in the timeout reader (with `args.Timeout`), plus the chunk size option. -/
structure Media where
  source : String
  size : Int
  timeout : Int
  chunkSize : Int
deriving DecidableEq, Repr

/-- The pending `FilesUpdateCall`.  `removeParents` and `addParents` are
`none` until `RemoveParents(..)` / `AddParents(..)` is called on it.  The
call holds a pointer to `dstFile`, so the payload is the value of `dstFile`
when `Do` runs; the embedding keeps `dstFile` next to the call. -/
structure Call where
  fileId : String
  fields : List String
  supportsTeamDrives : Bool
  media : Option Media := none
  removeParents : Option String := none
  addParents : Option String := none
deriving DecidableEq, Repr

/-- The observable effects of one run of `Update`, in order. -/
inductive Event where
  /-- `openFile(args.Path)` -/
  | openFile (path : String)
  /-- the deferred `srcFile.Close()` -/
  | closeFile (path : String)
  /-- `fmt.Fprintf(args.Out, ...)` with the text written -/
  | out (text : String)
  /-- `Files.Get(id).SupportsTeamDrives(true).Fields("parents").Do()` -/
  | filesGet (id : String)
  /-- `call.Do()` with the call and the payload `dstFile` -/
  | filesUpdate (call : Call) (payload : File)
deriving DecidableEq, Repr

/-- An event is a remote call when it is the parent fetch or the update
call. -/
def Event.isRemote : Event → Bool
  | .filesGet _ => true
  | .filesUpdate _ _ => true
  | _ => false

/-- What `call.Do()` amounts to for the caller: the returned pair
`(f, err)` and, next to it, how many bytes of the content stream had been
read when it returned (a fact of the run that `Update` has no access to). -/
structure DoResult where
  bytesTransferred : Nat
  result : Except GoError File

/-- The collaborators of `Update` that live outside update.go: the file
source, the remote service, the helpers of the package (`formatList`,
`isTimeoutError`, `calcRate`, `formatSize`), the standard library functions
(`filepath.Base`, `filepath.Ext`, `mime.TypeByExtension`, the `%v` rendering
of a `time.Duration`) and the two readings of the clock.

`mediaReturns m` tells whether `call.Context(ctx).Media(reader, chunkSize)`
of line 59 returns for the content stream `m`.  update.go passes
`args.ChunkSize` on unchecked (line 53), and the client library panics while
it allocates the chunk buffer for some values, a negative multiple of 262144
or a size beyond memory among them. -/
structure Env where
  openFile : String → Except GoError FileInfo
  filesGet : String → Except GoError File
  callDo : Call → File → DoResult
  mediaReturns : Media → Bool
  isTimeoutError : GoError → Bool
  formatList : List String → String
  base : String → String
  ext : String → String
  typeByExtension : String → String
  durationString : Int → String
  calcRate : Int → Int → Int → Int
  formatSize : Int → Bool → String
  started : Int
  finished : Int

/-- How a run ends: it returns `nil`, it returns an `error` whose text is
`msg`, or it does not return because a call it makes panics. -/
inductive Ending where
  | nil
  | error (msg : String)
  | panic
deriving DecidableEq, Repr

/-- The result of a run: the effects in order and how the run ends. -/
structure Outcome where
  trace : List Event
  ending : Ending
deriving DecidableEq, Repr

/-! ## The reconciliation loop (update.go, lines 70-91) -/

/-- The inner loop, lines 75-81: `found` becomes true at the first `s2` equal
to `s1`, and the loop breaks there. -/
def found (s1 : String) : List String → Bool
  | [] => false
  | s2 :: rest => if s1 = s2 then true else found s1 rest

/-- The map `ParentsList` of type `map[int][]string`; a missing key reads as
the nil slice. -/
abbrev ParentsMap := Nat → List String

/-- `ParentsList[i] = append(ParentsList[i], s1)` -/
def ParentsMap.append (m : ParentsMap) (i : Nat) (s1 : String) : ParentsMap :=
  fun j => if j = i then m j ++ [s1] else m j

/-- The middle loop, lines 74-86: ranges over `previous_parent.Parents` and
appends to `ParentsList[i]` every string not found in `fileArgs.Parents`. -/
def rangeLoop (i : Nat) (fileArgsParents : List String) :
    List String → ParentsMap → ParentsMap
  | [], m => m
  | s1 :: rest, m =>
    if found s1 fileArgsParents then rangeLoop i fileArgsParents rest m
    else rangeLoop i fileArgsParents rest (m.append i s1)

/-- The state the outer loop works on. -/
structure LoopState where
  previousParents : List String
  fileArgsParents : List String
  parentsList : ParentsMap

/-- One iteration of the outer loop, lines 74-90: the range loop, then the
swap of the two slices when `i == 0`. -/
def loopBody (i : Nat) (st : LoopState) : LoopState :=
  let m := rangeLoop i st.fileArgsParents st.previousParents st.parentsList
  if i = 0 then
    { previousParents := st.fileArgsParents, fileArgsParents := st.previousParents,
      parentsList := m }
  else
    { st with parentsList := m }

/-- The outer loop `for i := 0; i < 2; i++`, lines 70-91, started from the
empty map: `current` is `previous_parent.Parents` as fetched, `desired` is
`fileArgs.Parents`. -/
def parentsLoop (current desired : List String) : ParentsMap :=
  (loopBody 1 (loopBody 0
    { previousParents := current, fileArgsParents := desired,
      parentsList := fun _ => [] })).parentsList

/-! ## The method -/

/-- The text of `"Uploading %s\n"`, line 58. -/
def uploadingNotice (path : String) : String :=
  "Uploading " ++ path ++ "\n"

/-- The text of `"Move %s under new parent %s\n"`, line 106. -/
def moveNotice (env : Env) (f : File) : String :=
  "Move " ++ f.Id ++ " under new parent " ++ env.formatList f.Parents ++ "\n"

/-- The text of `"Updated %s at %s/s, total %s\n"`, lines 110-111. -/
def updatedNotice (env : Env) (f : File) : String :=
  "Updated " ++ f.Id ++ " at "
    ++ env.formatSize (env.calcRate f.Size env.started env.finished) false
    ++ "/s, total " ++ env.formatSize f.Size false ++ "\n"

/-- Lines 100-103: the text of the error returned when `call.Do()` fails with
`err`. -/
def uploadFailure (env : Env) (args : UpdateArgs) (err : GoError) : String :=
  if env.isTimeoutError err then
    "Failed to upload file: timeout, no data was transferred for "
      ++ env.durationString args.Timeout
  else
    "Failed to upload file: " ++ err.text

/-- Lines 97-113: issue the call and report.  `pre` is the trace so far and
`deferred` the pending deferred calls, run when the method returns. -/
def updateDo (env : Env) (args : UpdateArgs) (dstFile : File) (call : Call)
    (pre deferred : List Event) : Outcome :=
  match (env.callDo call dstFile).result with
  | .error err =>
    { trace := pre ++ [Event.filesUpdate call dstFile] ++ deferred,
      ending := .error (uploadFailure env args err) }
  | .ok f =>
    let moved : List Event :=
      if args.Parents.length > 0 then [Event.out (moveNotice env f)] else []
    let updated : List Event :=
      if args.Path ≠ "" then [Event.out (updatedNotice env f)] else []
    { trace := pre ++ [Event.filesUpdate call dstFile] ++ moved ++ updated ++ deferred,
      ending := .nil }

/-- Lines 62-95: when parents are requested, fetch the current ones, run the
reconciliation loop and attach the remove/add instruction when one of the two
lists is non-empty; then go on to the call. -/
def updateParents (env : Env) (args : UpdateArgs) (dstFile : File) (call : Call)
    (pre deferred : List Event) : Outcome :=
  if args.Parents.length > 0 then
    match env.filesGet args.Id with
    | .error err =>
      { trace := pre ++ [Event.filesGet args.Id] ++ deferred,
        ending := .error ("Failed to get file's parent: " ++ err.text) }
    | .ok previous_parent =>
      let ParentsList := parentsLoop previous_parent.Parents args.Parents
      let call :=
        if (ParentsList 0).length > 0 ∨ (ParentsList 1).length > 0 then
          { call with
            removeParents := some (env.formatList (ParentsList 0)),
            addParents := some (env.formatList (ParentsList 1)) }
        else call
      updateDo env args dstFile call (pre ++ [Event.filesGet args.Id]) deferred
  else
    updateDo env args dstFile call pre deferred

/-- Line 30: the call as created by
`Files.Update(args.Id, dstFile).Fields("id", "parents", "name", "size").SupportsTeamDrives(true)`,
with no content stream and no parent instruction yet. -/
def filesUpdateCall (id : String) : Call :=
  { fileId := id, fields := ["id", "parents", "name", "size"], supportsTeamDrives := true }

/-- `func (self *Drive) Update(args UpdateArgs) error`, lines 27-114.  When
`Media` panics at line 59 the file is open and the uploading notice of line
58 is written; the deferred `Close` runs while the panic unwinds, and nothing
after line 59 is executed. -/
def Update (env : Env) (args : UpdateArgs) : Outcome :=
  let dstFile : File := { Description := args.Description }
  let call : Call := filesUpdateCall args.Id
  if args.Path ≠ "" then
    match env.openFile args.Path with
    | .error err =>
      { trace := [Event.openFile args.Path],
        ending := .error ("Failed to open file: " ++ err.text) }
    | .ok srcFileInfo =>
      let name := if args.Name = "" then env.base srcFileInfo.name else args.Name
      let mimeType :=
        if args.Mime = "" then env.typeByExtension (env.ext name) else args.Mime
      let dstFile := { dstFile with Name := name, MimeType := mimeType }
      let media : Media :=
        { source := args.Path, size := srcFileInfo.size, timeout := args.Timeout,
          chunkSize := args.ChunkSize }
      if env.mediaReturns media then
        let call := { call with media := some media }
        updateParents env args dstFile call
          [Event.openFile args.Path, Event.out (uploadingNotice args.Path)]
          [Event.closeFile args.Path]
      else
        { trace :=
            [Event.openFile args.Path, Event.out (uploadingNotice args.Path),
              Event.closeFile args.Path],
          ending := .panic }
  else
    updateParents env args dstFile call [] []

/-! ## Observations on an outcome -/

/-- The update calls among a list of events, each with its payload. -/
def callsOf (t : List Event) : List (Call × File) :=
  t.filterMap fun
    | .filesUpdate c p => some (c, p)
    | _ => none

/-- The texts written to `args.Out` among a list of events. -/
def writtenOf (t : List Event) : List String :=
  t.filterMap fun
    | .out s => some s
    | _ => none

/-- The remote calls (parent fetches and update calls) among a list of
events. -/
def remoteOf (t : List Event) : List Event :=
  t.filter Event.isRemote

/-- The update calls issued in a run, each with its payload. -/
def Outcome.calls (o : Outcome) : List (Call × File) := callsOf o.trace

/-- The remote calls issued in a run. -/
def Outcome.remoteCalls (o : Outcome) : List Event := remoteOf o.trace

/-- The texts written to `args.Out` in a run. -/
def Outcome.written (o : Outcome) : List String := writtenOf o.trace

/-! ## Concrete environments used to evaluate the method -/

/-- An environment for evaluation: every file opens (name `report.txt`, 50
bytes), `Media` returns for chunk sizes from 0 to 1 GiB and panics for the
others, the parent fetch returns `current`, the update call succeeds with the
file `f`, `formatList` joins with a comma and a blank. -/
def okEnv (current : List String) (f : File) : Env where
  openFile := fun _ => .ok { name := "report.txt", size := 50 }
  filesGet := fun _ => .ok { Parents := current }
  callDo := fun _ _ => { bytesTransferred := 50, result := .ok f }
  mediaReturns := fun m => decide (0 ≤ m.chunkSize ∧ m.chunkSize ≤ 1073741824)
  isTimeoutError := fun e => e.tag = 1
  formatList := fun l => ", ".intercalate l
  base := fun s => s
  ext := fun _ => ".txt"
  typeByExtension := fun _ => "text/plain"
  durationString := fun _ => "2s"
  calcRate := fun bytes _ _ => bytes
  formatSize := fun _ _ => "50 B"
  started := 0
  finished := 0

/-- The environment `okEnv` with an update call that fails with the error
`e` after `n` bytes of the content stream were read. -/
def failEnv (current : List String) (n : Nat) (e : GoError) : Env :=
  { okEnv current {} with callDo := fun _ _ => { bytesTransferred := n, result := .error e } }

/-- The environment `okEnv` with a file source that fails with `e`. -/
def noFileEnv (e : GoError) : Env :=
  { okEnv [] {} with openFile := fun _ => .error e }

/-- The environment `okEnv` with a parent fetch that fails with `e`. -/
def noFetchEnv (e : GoError) : Env :=
  { okEnv [] {} with filesGet := fun _ => .error e }

/-! ## Lemmas on the reconciliation loop -/

theorem found_iff_mem (s1 : String) (l : List String) : found s1 l = true ↔ s1 ∈ l := by
  induction l with
  | nil => simp [found]
  | cons s2 rest ih =>
    by_cases h : s1 = s2
    · simp [found, h]
    · simp [found, h, ih]

theorem rangeLoop_eq (i : Nat) (fp : List String) (xs : List String) (m : ParentsMap) (j : Nat) :
    rangeLoop i fp xs m j
      = if j = i then m j ++ xs.filter (fun s1 => !found s1 fp) else m j := by
  induction xs generalizing m with
  | nil => simp [rangeLoop]
  | cons s1 rest ih =>
    by_cases hf : found s1 fp = true
    · simp [rangeLoop, hf, ih]
    · by_cases hj : j = i
      · subst hj
        simp [rangeLoop, hf, ih, ParentsMap.append]
      · simp [rangeLoop, hf, ih, ParentsMap.append, hj]

theorem parentsLoop_zero (current desired : List String) :
    parentsLoop current desired 0 = current.filter (fun s1 => !found s1 desired) := by
  simp [parentsLoop, loopBody, rangeLoop_eq]

theorem parentsLoop_one (current desired : List String) :
    parentsLoop current desired 1 = desired.filter (fun s1 => !found s1 current) := by
  simp [parentsLoop, loopBody, rangeLoop_eq]

theorem mem_parentsLoop_zero (current desired : List String) (x : String) :
    x ∈ parentsLoop current desired 0 ↔ x ∈ current ∧ x ∉ desired := by
  rw [parentsLoop_zero]
  simp [List.mem_filter, ← found_iff_mem]

theorem mem_parentsLoop_one (current desired : List String) (x : String) :
    x ∈ parentsLoop current desired 1 ↔ x ∈ desired ∧ x ∉ current := by
  rw [parentsLoop_one]
  simp [List.mem_filter, ← found_iff_mem]

/-! ## Lemmas on the notices -/

theorem moveNotice_ne_uploadingNotice (env : Env) (f : File) (path : String) :
    moveNotice env f ≠ uploadingNotice path := by
  intro h
  have h2 := congrArg String.data h
  simp [moveNotice, uploadingNotice, String.data_append] at h2

theorem updatedNotice_ne_uploadingNotice (env : Env) (f : File) (path : String) :
    updatedNotice env f ≠ uploadingNotice path := by
  intro h
  have h2 := congrArg String.data h
  simp [updatedNotice, uploadingNotice, String.data_append] at h2

theorem moveNotice_ne_updatedNotice (env : Env) (f g : File) :
    moveNotice env f ≠ updatedNotice env g := by
  intro h
  have h2 := congrArg String.data h
  simp [moveNotice, updatedNotice, String.data_append] at h2

/-! ## Lemmas on the method -/

theorem updateDo_error (env : Env) (args : UpdateArgs) (d : File) (c : Call)
    (pre deferred : List Event) (e : GoError) (h : (env.callDo c d).result = .error e) :
    updateDo env args d c pre deferred
      = { trace := pre ++ [Event.filesUpdate c d] ++ deferred,
          ending := .error (uploadFailure env args e) } := by
  unfold updateDo
  rw [h]

theorem updateDo_ok (env : Env) (args : UpdateArgs) (d : File) (c : Call)
    (pre deferred : List Event) (f : File) (h : (env.callDo c d).result = .ok f) :
    updateDo env args d c pre deferred
      = { trace := pre ++ [Event.filesUpdate c d]
            ++ (if args.Parents.length > 0 then [Event.out (moveNotice env f)] else [])
            ++ (if args.Path ≠ "" then [Event.out (updatedNotice env f)] else [])
            ++ deferred,
          ending := .nil } := by
  unfold updateDo
  rw [h]

theorem callsOf_append (a b : List Event) : callsOf (a ++ b) = callsOf a ++ callsOf b := by
  simp [callsOf, List.filterMap_append]

theorem writtenOf_append (a b : List Event) :
    writtenOf (a ++ b) = writtenOf a ++ writtenOf b := by
  simp [writtenOf, List.filterMap_append]

theorem remoteOf_append (a b : List Event) : remoteOf (a ++ b) = remoteOf a ++ remoteOf b := by
  simp [remoteOf, List.filter_append]

theorem updateDo_calls (env : Env) (args : UpdateArgs) (d : File) (c : Call)
    (pre deferred : List Event) :
    (updateDo env args d c pre deferred).calls
      = callsOf pre ++ [(c, d)] ++ callsOf deferred := by
  cases h : (env.callDo c d).result with
  | error e =>
    rw [updateDo_error env args d c pre deferred e h]
    simp [Outcome.calls, callsOf_append, callsOf]
  | ok f =>
    rw [updateDo_ok env args d c pre deferred f h]
    by_cases h1 : args.Parents.length > 0 <;> by_cases h2 : args.Path = "" <;>
      simp [Outcome.calls, callsOf_append, callsOf, h1, h2]

theorem updateParents_none (env : Env) (args : UpdateArgs) (d : File) (c : Call)
    (pre deferred : List Event) (h : args.Parents = []) :
    updateParents env args d c pre deferred = updateDo env args d c pre deferred := by
  simp [updateParents, h]

theorem updateParents_fetch_error (env : Env) (args : UpdateArgs) (d : File) (c : Call)
    (pre deferred : List Event) (e : GoError) (h : args.Parents ≠ [])
    (hget : env.filesGet args.Id = .error e) :
    updateParents env args d c pre deferred
      = { trace := pre ++ [Event.filesGet args.Id] ++ deferred,
          ending := .error ("Failed to get file's parent: " ++ e.text) } := by
  have hl : args.Parents.length > 0 := List.length_pos.mpr h
  simp [updateParents, hl, hget]

theorem updateParents_fetch_ok (env : Env) (args : UpdateArgs) (d : File) (c : Call)
    (pre deferred : List Event) (prev : File) (h : args.Parents ≠ [])
    (hget : env.filesGet args.Id = .ok prev) :
    updateParents env args d c pre deferred
      = updateDo env args d
          (if (parentsLoop prev.Parents args.Parents 0).length > 0
              ∨ (parentsLoop prev.Parents args.Parents 1).length > 0 then
            { c with
              removeParents := some (env.formatList (parentsLoop prev.Parents args.Parents 0)),
              addParents := some (env.formatList (parentsLoop prev.Parents args.Parents 1)) }
           else c)
          (pre ++ [Event.filesGet args.Id]) deferred := by
  have hl : args.Parents.length > 0 := List.length_pos.mpr h
  simp [updateParents, hl, hget]

/-- Every update call in the trace of `updateParents` is the last step of a
run of `updateDo` on that call and payload `d`, after a trace that extends
`pre` by at most the parent fetch; the call keeps the media of `c0`, and is
`c0` itself when no parents were requested. -/
theorem updateParents_reaches (env : Env) (args : UpdateArgs) (d : File) (c0 : Call)
    (pre deferred : List Event) (c : Call) (p : File)
    (hpre : callsOf pre = []) (hdef : callsOf deferred = [])
    (h : (c, p) ∈ (updateParents env args d c0 pre deferred).calls) :
    p = d ∧ c.media = c0.media ∧
    (args.Parents = [] → c = c0) ∧
    ∃ pre2, updateParents env args d c0 pre deferred = updateDo env args d c pre2 deferred
      ∧ callsOf pre2 = [] ∧ writtenOf pre2 = writtenOf pre := by
  by_cases hP : args.Parents = []
  · rw [updateParents_none env args d c0 pre deferred hP] at h ⊢
    rw [updateDo_calls, hpre, hdef] at h
    simp at h
    obtain ⟨rfl, rfl⟩ := h
    exact ⟨rfl, rfl, fun _ => rfl, pre, rfl, hpre, rfl⟩
  · cases hget : env.filesGet args.Id with
    | error e =>
      rw [updateParents_fetch_error env args d c0 pre deferred e hP hget] at h
      have h0 : callsOf [Event.filesGet args.Id] = [] := rfl
      simp only [Outcome.calls, callsOf_append, hpre, hdef, h0] at h
      simp at h
    | ok prev =>
      rw [updateParents_fetch_ok env args d c0 pre deferred prev hP hget] at h ⊢
      have h0 : callsOf [Event.filesGet args.Id] = [] := rfl
      have hpre2 : callsOf (pre ++ [Event.filesGet args.Id]) = [] := by
        rw [callsOf_append, hpre, h0]
        rfl
      rw [updateDo_calls, hpre2, hdef] at h
      simp at h
      obtain ⟨rfl, rfl⟩ := h
      refine ⟨rfl, ?_, fun h0 => absurd h0 hP, pre ++ [Event.filesGet args.Id], rfl, hpre2, ?_⟩
      · split <;> rfl
      · have h1 : writtenOf [Event.filesGet args.Id] = [] := rfl
        rw [writtenOf_append, h1, List.append_nil]

theorem Update_no_path (env : Env) (args : UpdateArgs) (h : args.Path = "") :
    Update env args
      = updateParents env args { Description := args.Description } (filesUpdateCall args.Id)
          [] [] := by
  simp [Update, h]

theorem Update_open_error (env : Env) (args : UpdateArgs) (e : GoError) (h : args.Path ≠ "")
    (hopen : env.openFile args.Path = .error e) :
    Update env args
      = { trace := [Event.openFile args.Path],
          ending := .error ("Failed to open file: " ++ e.text) } := by
  simp [Update, h, hopen]

theorem Update_media_panic (env : Env) (args : UpdateArgs) (info : FileInfo)
    (h : args.Path ≠ "") (hopen : env.openFile args.Path = .ok info)
    (hmedia : env.mediaReturns ⟨args.Path, info.size, args.Timeout, args.ChunkSize⟩ = false) :
    Update env args
      = { trace :=
            [Event.openFile args.Path, Event.out (uploadingNotice args.Path),
              Event.closeFile args.Path],
          ending := .panic } := by
  simp [Update, h, hopen, hmedia]

/-- The panic of line 59 evaluated: with a path, parents requested and the
chunk size -262144 or 9223372036854775807, the run opens the file, writes the
uploading notice, closes the file and ends in a panic, with no parent fetch
and no update call. -/
theorem Update_panics_on_chunk_size :
    Update (okEnv ["B"] {})
        { Id := "f", Path := "report.txt", Parents := ["A"], ChunkSize := -262144 }
      = { trace :=
            [Event.openFile "report.txt", Event.out "Uploading report.txt\n",
              Event.closeFile "report.txt"],
          ending := .panic }
    ∧ Update (okEnv ["B"] {})
        { Id := "f", Path := "report.txt", Parents := ["A"],
          ChunkSize := 9223372036854775807 }
      = { trace :=
            [Event.openFile "report.txt", Event.out "Uploading report.txt\n",
              Event.closeFile "report.txt"],
          ending := .panic } := by
  decide

theorem Update_open_ok (env : Env) (args : UpdateArgs) (info : FileInfo) (h : args.Path ≠ "")
    (hopen : env.openFile args.Path = .ok info)
    (hmedia : env.mediaReturns ⟨args.Path, info.size, args.Timeout, args.ChunkSize⟩ = true) :
    Update env args
      = updateParents env args
          { Description := args.Description,
            Name := if args.Name = "" then env.base info.name else args.Name,
            MimeType :=
              if args.Mime = "" then
                env.typeByExtension
                  (env.ext (if args.Name = "" then env.base info.name else args.Name))
              else args.Mime }
          { filesUpdateCall args.Id with
            media := some ⟨args.Path, info.size, args.Timeout, args.ChunkSize⟩ }
          [Event.openFile args.Path, Event.out (uploadingNotice args.Path)]
          [Event.closeFile args.Path] := by
  simp [Update, h, hopen, hmedia]

/-- Every update call in the trace of `Update` is the last step of a run of
`updateDo` on that call and payload, reached after a trace without update
calls whose only possible notice is the uploading notice. -/
theorem Update_reaches (env : Env) (args : UpdateArgs) (c : Call) (p : File)
    (h : (c, p) ∈ (Update env args).calls) :
    p.Description = args.Description ∧
    (args.Path ≠ "" → (args.Name ≠ "" → p.Name = args.Name)
      ∧ (args.Mime ≠ "" → p.MimeType = args.Mime) ∧ c.media ≠ none) ∧
    (args.Path = "" → p.Name = "" ∧ p.MimeType = "" ∧ c.media = none) ∧
    (args.Parents = [] → c.removeParents = none ∧ c.addParents = none) ∧
    ∃ pre deferred, Update env args = updateDo env args p c pre deferred
      ∧ callsOf pre = [] ∧ callsOf deferred = []
      ∧ writtenOf pre = (if args.Path ≠ "" then [uploadingNotice args.Path] else [])
      ∧ writtenOf deferred = [] := by
  by_cases hp : args.Path = ""
  · rw [Update_no_path env args hp] at h ⊢
    obtain ⟨rfl, hm, hc, pre2, heq, hc2, hw2⟩ :=
      updateParents_reaches env args _ _ [] [] c p rfl rfl h
    refine ⟨rfl, fun h0 => absurd hp h0, fun _ => ⟨rfl, rfl, ?_⟩, ?_, pre2, [], heq, hc2, rfl,
      ?_, rfl⟩
    · rw [hm]; rfl
    · intro hP; rw [hc hP]; exact ⟨rfl, rfl⟩
    · rw [hw2]; simp [hp, writtenOf]
  · cases hopen : env.openFile args.Path with
    | error e =>
      rw [Update_open_error env args e hp hopen] at h
      exact absurd h (by simp [Outcome.calls, callsOf])
    | ok info =>
      cases hmedia : env.mediaReturns ⟨args.Path, info.size, args.Timeout, args.ChunkSize⟩
      · rw [Update_media_panic env args info hp hopen hmedia] at h
        exact absurd h (by simp [Outcome.calls, callsOf])
      rw [Update_open_ok env args info hp hopen hmedia] at h ⊢
      obtain ⟨rfl, hm, hc, pre2, heq, hc2, hw2⟩ :=
        updateParents_reaches env args _ _
          [Event.openFile args.Path, Event.out (uploadingNotice args.Path)]
          [Event.closeFile args.Path] c p rfl rfl h
      refine ⟨rfl, fun _ => ⟨?_, ?_, ?_⟩, fun h0 => absurd h0 hp, ?_, pre2, _, heq, hc2, rfl,
        ?_, rfl⟩
      · intro hn; simp [hn]
      · intro hn; simp [hn]
      · rw [hm]; simp
      · intro hP; rw [hc hP]; exact ⟨rfl, rfl⟩
      · rw [hw2]; simp [hp, writtenOf]


/-- The guard of line 92 in terms of membership: one of the two lists is
non-empty exactly when some identifier occurs in one of `current` and
`desired` and not in the other. -/
theorem delta_nonempty_iff (current desired : List String) :
    ((parentsLoop current desired 0).length > 0 ∨ (parentsLoop current desired 1).length > 0)
      ↔ ∃ x, (x ∈ current ∧ x ∉ desired) ∨ (x ∈ desired ∧ x ∉ current) := by
  constructor
  · rintro (h | h)
    · obtain ⟨x, hx⟩ := List.exists_mem_of_length_pos h
      exact ⟨x, Or.inl ((mem_parentsLoop_zero current desired x).mp hx)⟩
    · obtain ⟨x, hx⟩ := List.exists_mem_of_length_pos h
      exact ⟨x, Or.inr ((mem_parentsLoop_one current desired x).mp hx)⟩
  · rintro ⟨x, h | h⟩
    · exact Or.inl (List.length_pos_of_mem ((mem_parentsLoop_zero current desired x).mpr h))
    · exact Or.inr (List.length_pos_of_mem ((mem_parentsLoop_one current desired x).mpr h))

/-- When parents are requested, the run reaches the parent fetch (with a
path: the file opens and `Media` returns) and the fetch succeeds, `Update`
issues exactly one update call, and its parent instruction is decided by the
guard of line 92. -/
theorem Update_parents_call (env : Env) (args : UpdateArgs) (prev : File)
    (hP : args.Parents ≠ [])
    (hopen : args.Path ≠ "" → ∃ info, env.openFile args.Path = .ok info
      ∧ env.mediaReturns ⟨args.Path, info.size, args.Timeout, args.ChunkSize⟩ = true)
    (hget : env.filesGet args.Id = .ok prev) :
    ∃ c p, (Update env args).calls = [(c, p)] ∧
      (((parentsLoop prev.Parents args.Parents 0).length > 0
          ∨ (parentsLoop prev.Parents args.Parents 1).length > 0) →
        c.removeParents = some (env.formatList (parentsLoop prev.Parents args.Parents 0))
          ∧ c.addParents = some (env.formatList (parentsLoop prev.Parents args.Parents 1))) ∧
      (¬ ((parentsLoop prev.Parents args.Parents 0).length > 0
          ∨ (parentsLoop prev.Parents args.Parents 1).length > 0) →
        c.removeParents = none ∧ c.addParents = none) := by
  have key : ∀ (d : File) (c0 : Call) (pre deferred : List Event),
      c0.removeParents = none → c0.addParents = none →
      callsOf pre = [] → callsOf deferred = [] →
      ∃ c p, (updateParents env args d c0 pre deferred).calls = [(c, p)] ∧
      (((parentsLoop prev.Parents args.Parents 0).length > 0
          ∨ (parentsLoop prev.Parents args.Parents 1).length > 0) →
        c.removeParents = some (env.formatList (parentsLoop prev.Parents args.Parents 0))
          ∧ c.addParents = some (env.formatList (parentsLoop prev.Parents args.Parents 1))) ∧
      (¬ ((parentsLoop prev.Parents args.Parents 0).length > 0
          ∨ (parentsLoop prev.Parents args.Parents 1).length > 0) →
        c.removeParents = none ∧ c.addParents = none) := by
    intro d c0 pre deferred hr ha hpre hdef
    have h0 : callsOf [Event.filesGet args.Id] = [] := rfl
    rw [updateParents_fetch_ok env args d c0 pre deferred prev hP hget, updateDo_calls,
      callsOf_append, hpre, hdef, h0]
    refine ⟨_, _, rfl, ?_, ?_⟩
    · intro h; rw [if_pos h]; exact ⟨rfl, rfl⟩
    · intro h; rw [if_neg h]; exact ⟨hr, ha⟩
  by_cases hp : args.Path = ""
  · rw [Update_no_path env args hp]
    exact key _ _ [] [] rfl rfl rfl rfl
  · obtain ⟨info, hinfo, hmedia⟩ := hopen hp
    rw [Update_open_ok env args info hp hinfo hmedia]
    exact key _ _ _ _ rfl rfl rfl rfl

/-! ## The reconciliation loop: claims C1, C10, C2, C3 -/

/-- C1: the remove list `ParentsList[0]` produced by the two-pass loop holds
exactly the identifiers that occur in `current` and not in `desired`, the add
list `ParentsList[1]` exactly those that occur in `desired` and not in
`current`; for desired `A, B` and current `B, C` the loop gives the remove
list `C` and the add list `A`. -/
theorem parentsLoop_is_set_difference :
    (∀ (current desired : List String) (x : String),
      (x ∈ parentsLoop current desired 0 ↔ x ∈ current ∧ x ∉ desired)
        ∧ (x ∈ parentsLoop current desired 1 ↔ x ∈ desired ∧ x ∉ current))
    ∧ parentsLoop ["B", "C"] ["A", "B"] 0 = ["C"]
    ∧ parentsLoop ["B", "C"] ["A", "B"] 1 = ["A"] :=
  ⟨fun current desired x =>
    ⟨mem_parentsLoop_zero current desired x, mem_parentsLoop_one current desired x⟩,
    by decide, by decide⟩

/-- C10: the remove list and the add list produced by the loop are disjoint:
no identifier occurs both in `ParentsList[0]` and in `ParentsList[1]`. -/
theorem parentsLoop_disjoint (current desired : List String) (x : String) :
    ¬ (x ∈ parentsLoop current desired 0 ∧ x ∈ parentsLoop current desired 1) := by
  rintro ⟨h0, h1⟩
  exact ((mem_parentsLoop_zero current desired x).mp h0).2
    ((mem_parentsLoop_one current desired x).mp h1).1

/-- C2: when parents are requested, the run reaches the parent fetch (with a
path: the file opens and `Media` returns) and the fetch returns `prev`,
`Update` issues one update call, and that call carries a remove/add
instruction if and only if the delta is non-empty, which is if and only if
some identifier occurs in exactly one of the current and the desired parents;
when both hold the same identifiers the two lists are empty and nothing is
attached. -/
theorem Update_attaches_iff_delta_nonempty (env : Env) (args : UpdateArgs) (prev : File)
    (hP : args.Parents ≠ [])
    (hopen : args.Path ≠ "" → ∃ info, env.openFile args.Path = .ok info
      ∧ env.mediaReturns ⟨args.Path, info.size, args.Timeout, args.ChunkSize⟩ = true)
    (hget : env.filesGet args.Id = .ok prev) :
    ∃ c p, (Update env args).calls = [(c, p)] ∧
      ((c.removeParents ≠ none ∨ c.addParents ≠ none) ↔
        (parentsLoop prev.Parents args.Parents 0 ≠ []
          ∨ parentsLoop prev.Parents args.Parents 1 ≠ [])) ∧
      ((c.removeParents ≠ none ∨ c.addParents ≠ none) ↔
        ∃ x, (x ∈ prev.Parents ∧ x ∉ args.Parents) ∨ (x ∈ args.Parents ∧ x ∉ prev.Parents)) ∧
      ((c.removeParents ≠ none ∨ c.addParents ≠ none) →
        c.removeParents = some (env.formatList (parentsLoop prev.Parents args.Parents 0))
          ∧ c.addParents = some (env.formatList (parentsLoop prev.Parents args.Parents 1))) ∧
      ((∀ x, x ∈ prev.Parents ↔ x ∈ args.Parents) →
        parentsLoop prev.Parents args.Parents 0 = []
          ∧ parentsLoop prev.Parents args.Parents 1 = []
          ∧ c.removeParents = none ∧ c.addParents = none) := by
  obtain ⟨c, p, hc, hyes, hno⟩ := Update_parents_call env args prev hP hopen hget
  have hiff := delta_nonempty_iff prev.Parents args.Parents
  have hattached : (c.removeParents ≠ none ∨ c.addParents ≠ none) ↔
      ((parentsLoop prev.Parents args.Parents 0).length > 0
        ∨ (parentsLoop prev.Parents args.Parents 1).length > 0) := by
    constructor
    · intro h
      by_contra hn
      obtain ⟨h1, h2⟩ := hno hn
      rcases h with h | h
      · exact h h1
      · exact h h2
    · intro h
      obtain ⟨h1, _⟩ := hyes h
      exact Or.inl (by rw [h1]; simp)
  refine ⟨c, p, hc, ?_, hattached.trans hiff, fun h => hyes (hattached.mp h), ?_⟩
  · rw [hattached]
    simp only [gt_iff_lt, List.length_pos]
  · intro hsame
    have hn : ¬ ((parentsLoop prev.Parents args.Parents 0).length > 0
        ∨ (parentsLoop prev.Parents args.Parents 1).length > 0) := by
      rw [hiff]
      rintro ⟨x, ⟨h1, h2⟩ | ⟨h1, h2⟩⟩
      · exact h2 ((hsame x).mp h1)
      · exact h2 ((hsame x).mpr h1)
    obtain ⟨h1, h2⟩ := hno hn
    have hn2 := not_or.mp hn
    exact ⟨List.length_eq_zero.mp (Nat.eq_zero_of_not_pos hn2.1),
      List.length_eq_zero.mp (Nat.eq_zero_of_not_pos hn2.2), h1, h2⟩

/-- Witness of C2 at desired `A, B` and current `B, C`, with the upload of
`report.txt`, where the call carries the remove list `C` and the add list
`A`. -/
theorem Update_attaches_iff_delta_nonempty_witness :
    ∃ c p, (Update (okEnv ["B", "C"] {}) { Id := "f", Path := "report.txt", Parents := ["A", "B"] }).calls = [(c, p)] ∧
      ((c.removeParents ≠ none ∨ c.addParents ≠ none) ↔
        (parentsLoop ["B", "C"] ["A", "B"] 0 ≠ [] ∨ parentsLoop ["B", "C"] ["A", "B"] 1 ≠ [])) ∧
      ((c.removeParents ≠ none ∨ c.addParents ≠ none) ↔
        ∃ x, (x ∈ ["B", "C"] ∧ x ∉ ["A", "B"]) ∨ (x ∈ ["A", "B"] ∧ x ∉ ["B", "C"])) ∧
      ((c.removeParents ≠ none ∨ c.addParents ≠ none) →
        c.removeParents = some ((okEnv ["B", "C"] {}).formatList (parentsLoop ["B", "C"] ["A", "B"] 0))
          ∧ c.addParents = some ((okEnv ["B", "C"] {}).formatList (parentsLoop ["B", "C"] ["A", "B"] 1))) ∧
      ((∀ x, x ∈ ["B", "C"] ↔ x ∈ ["A", "B"]) →
        parentsLoop ["B", "C"] ["A", "B"] 0 = []
          ∧ parentsLoop ["B", "C"] ["A", "B"] 1 = []
          ∧ c.removeParents = none ∧ c.addParents = none) :=
  Update_attaches_iff_delta_nonempty (okEnv ["B", "C"] {}) { Id := "f", Path := "report.txt", Parents := ["A", "B"] }
    { Parents := ["B", "C"] } (by decide) (fun _ => ⟨⟨"report.txt", 50⟩, rfl, by decide⟩) rfl

/-- C3 fails as stated: with current parents `C, D` and desired `A, B` the
call carries the remove list `C, D` and the add list `A, B`; with the same
identifiers given as `D, C, C` and `B, A` it carries `D, C, C` and `B, A`. -/
theorem delta_depends_on_order_and_repeats :
    (∀ x : String, x ∈ ["C", "D"] ↔ x ∈ ["D", "C", "C"])
    ∧ (∀ x : String, x ∈ ["A", "B"] ↔ x ∈ ["B", "A"])
    ∧ (Update (okEnv ["C", "D"] {}) { Id := "f", Parents := ["A", "B"] }).calls
        = [({ filesUpdateCall "f" with
              removeParents := some "C, D", addParents := some "A, B" }, {})]
    ∧ (Update (okEnv ["D", "C", "C"] {}) { Id := "f", Parents := ["B", "A"] }).calls
        = [({ filesUpdateCall "f" with
              removeParents := some "D, C, C", addParents := some "B, A" }, {})]
    ∧ (Update (okEnv ["C", "D"] {}) { Id := "f", Parents := ["A", "B"] }).calls
        ≠ (Update (okEnv ["D", "C", "C"] {}) { Id := "f", Parents := ["B", "A"] }).calls := by
  refine ⟨?_, ?_, by decide, by decide, by decide⟩
  · intro x; simp; tauto
  · intro x; simp; tauto

/-- C3 as amended: when `current'` holds the same identifiers as `current`
and `desired'` the same as `desired`, the remove lists of the two
reconciliations hold the same identifiers, so do the add lists, and, both
runs reaching the parent fetch (with a path: the file opens and `Media`
returns), the two update calls agree on whether a parent instruction is
attached. -/
theorem delta_same_identifiers (env env' : Env) (args args' : UpdateArgs) (prev prev' : File)
    (hP : args.Parents ≠ [])
    (hopen : args.Path ≠ "" → ∃ info, env.openFile args.Path = .ok info
      ∧ env.mediaReturns ⟨args.Path, info.size, args.Timeout, args.ChunkSize⟩ = true)
    (hopen' : args'.Path ≠ "" → ∃ info, env'.openFile args'.Path = .ok info
      ∧ env'.mediaReturns ⟨args'.Path, info.size, args'.Timeout, args'.ChunkSize⟩ = true)
    (hget : env.filesGet args.Id = .ok prev)
    (hget' : env'.filesGet args'.Id = .ok prev')
    (hcur : ∀ x, x ∈ prev.Parents ↔ x ∈ prev'.Parents)
    (hdes : ∀ x, x ∈ args.Parents ↔ x ∈ args'.Parents) :
    (∀ x, x ∈ parentsLoop prev.Parents args.Parents 0
        ↔ x ∈ parentsLoop prev'.Parents args'.Parents 0) ∧
    (∀ x, x ∈ parentsLoop prev.Parents args.Parents 1
        ↔ x ∈ parentsLoop prev'.Parents args'.Parents 1) ∧
    ∃ c p c' p', (Update env args).calls = [(c, p)] ∧ (Update env' args').calls = [(c', p')] ∧
      ((c.removeParents ≠ none ∨ c.addParents ≠ none)
        ↔ (c'.removeParents ≠ none ∨ c'.addParents ≠ none)) := by
  have hP' : args'.Parents ≠ [] := by
    obtain ⟨x, hx⟩ := List.exists_mem_of_ne_nil _ hP
    exact List.ne_nil_of_mem ((hdes x).mp hx)
  have h0 : ∀ x, x ∈ parentsLoop prev.Parents args.Parents 0
      ↔ x ∈ parentsLoop prev'.Parents args'.Parents 0 := by
    intro x
    rw [mem_parentsLoop_zero, mem_parentsLoop_zero, hcur x, hdes x]
  have h1 : ∀ x, x ∈ parentsLoop prev.Parents args.Parents 1
      ↔ x ∈ parentsLoop prev'.Parents args'.Parents 1 := by
    intro x
    rw [mem_parentsLoop_one, mem_parentsLoop_one, hcur x, hdes x]
  have hguard : ((parentsLoop prev.Parents args.Parents 0).length > 0
        ∨ (parentsLoop prev.Parents args.Parents 1).length > 0)
      ↔ ((parentsLoop prev'.Parents args'.Parents 0).length > 0
        ∨ (parentsLoop prev'.Parents args'.Parents 1).length > 0) := by
    rw [delta_nonempty_iff, delta_nonempty_iff]
    constructor
    · rintro ⟨x, hx⟩
      exact ⟨x, by rw [← hcur x, ← hdes x]; exact hx⟩
    · rintro ⟨x, hx⟩
      exact ⟨x, by rw [hcur x, hdes x]; exact hx⟩
  obtain ⟨c, p, hc, hyes, hno⟩ := Update_parents_call env args prev hP hopen hget
  obtain ⟨c', p', hc', hyes', hno'⟩ := Update_parents_call env' args' prev' hP' hopen' hget'
  refine ⟨h0, h1, c, p, c', p', hc, hc', ?_⟩
  by_cases hg : (parentsLoop prev.Parents args.Parents 0).length > 0
      ∨ (parentsLoop prev.Parents args.Parents 1).length > 0
  · obtain ⟨a, _⟩ := hyes hg
    obtain ⟨a', _⟩ := hyes' (hguard.mp hg)
    simp [a, a']
  · obtain ⟨a, b⟩ := hno hg
    obtain ⟨a', b'⟩ := hno' (fun h => hg (hguard.mpr h))
    simp [a, b, a', b']

/-- Witness of the amended C3 at current `C, D` / `D, C, C` and desired
`A, B` / `B, A`. -/
theorem delta_same_identifiers_witness :
    (∀ x, x ∈ parentsLoop ["C", "D"] ["A", "B"] 0
        ↔ x ∈ parentsLoop ["D", "C", "C"] ["B", "A"] 0) ∧
    (∀ x, x ∈ parentsLoop ["C", "D"] ["A", "B"] 1
        ↔ x ∈ parentsLoop ["D", "C", "C"] ["B", "A"] 1) ∧
    ∃ c p c' p',
      (Update (okEnv ["C", "D"] {})
        { Id := "f", Path := "report.txt", Parents := ["A", "B"] }).calls = [(c, p)] ∧
      (Update (okEnv ["D", "C", "C"] {}) { Id := "f", Parents := ["B", "A"] }).calls
        = [(c', p')] ∧
      ((c.removeParents ≠ none ∨ c.addParents ≠ none)
        ↔ (c'.removeParents ≠ none ∨ c'.addParents ≠ none)) :=
  delta_same_identifiers (okEnv ["C", "D"] {}) (okEnv ["D", "C", "C"] {})
    { Id := "f", Path := "report.txt", Parents := ["A", "B"] }
    { Id := "f", Parents := ["B", "A"] }
    { Parents := ["C", "D"] } { Parents := ["D", "C", "C"] }
    (by decide) (fun _ => ⟨⟨"report.txt", 50⟩, rfl, by decide⟩) (fun h => absurd rfl h)
    rfl rfl
    (by intro x; simp; tauto) (by intro x; simp; tauto)

/-! ## The outcome of the update call: shared lemmas -/

/-- A list of notices that holds at most the uploading notice holds no move
notice and no completion notice. -/
theorem no_notice_before_call (env : Env) (args : UpdateArgs) (f : File) :
    moveNotice env f ∉ (if args.Path ≠ "" then [uploadingNotice args.Path] else [])
      ∧ updatedNotice env f
          ∉ (if args.Path ≠ "" then [uploadingNotice args.Path] else []) := by
  by_cases hp : args.Path = ""
  · simp [hp]
  · simp only [ne_eq, hp, not_false_eq_true, if_true, List.mem_singleton]
    exact ⟨moveNotice_ne_uploadingNotice env f _, updatedNotice_ne_uploadingNotice env f _⟩

/-- When the update call that `Update` issues fails with `e`, the returned
error is `uploadFailure` and the only notice written is the uploading notice
(when a path is given). -/
theorem Update_of_call_error (env : Env) (args : UpdateArgs) (c : Call) (p : File)
    (e : GoError) (hcall : (c, p) ∈ (Update env args).calls)
    (hfail : (env.callDo c p).result = .error e) :
    (Update env args).ending = .error (uploadFailure env args e) ∧
    (Update env args).written
      = (if args.Path ≠ "" then [uploadingNotice args.Path] else []) := by
  obtain ⟨_, _, _, _, pre, deferred, heq, _, _, hw, hwd⟩ := Update_reaches env args c p hcall
  rw [heq, updateDo_error env args p c pre deferred e hfail]
  refine ⟨rfl, ?_⟩
  have h1 : writtenOf [Event.filesUpdate c p] = [] := rfl
  simp only [Outcome.written, writtenOf_append, hw, hwd, h1, List.append_nil]

/-- When the update call that `Update` issues returns the file `f`, `Update`
returns nil and writes, in order, the uploading notice when a path is given,
the move notice when parents were requested and the completion notice when a
path is given. -/
theorem Update_of_call_ok (env : Env) (args : UpdateArgs) (c : Call) (p : File)
    (f : File) (hcall : (c, p) ∈ (Update env args).calls)
    (hok : (env.callDo c p).result = .ok f) :
    (Update env args).ending = .nil ∧
    (Update env args).written
      = (if args.Path ≠ "" then [uploadingNotice args.Path] else [])
        ++ (if args.Parents.length > 0 then [moveNotice env f] else [])
        ++ (if args.Path ≠ "" then [updatedNotice env f] else []) := by
  obtain ⟨_, _, _, _, pre, deferred, heq, _, _, hw, hwd⟩ := Update_reaches env args c p hcall
  rw [heq, updateDo_ok env args p c pre deferred f hok]
  refine ⟨rfl, ?_⟩
  have h1 : writtenOf [Event.filesUpdate c p] = [] := rfl
  simp only [Outcome.written, writtenOf_append, hw, hwd, h1, List.append_nil]
  by_cases hP : args.Parents.length > 0 <;> by_cases hp : args.Path = "" <;>
    simp [hP, hp, writtenOf]

/-- A run of `Update` either ends without an update call, in a returned
error or in a panic, or issues exactly one update call. -/
theorem Update_early_or_call (env : Env) (args : UpdateArgs) :
    ((Update env args).calls = [] ∧ (Update env args).ending ≠ .nil)
      ∨ ∃ c p, (Update env args).calls = [(c, p)] := by
  have key : ∀ (d : File) (c0 : Call) (pre deferred : List Event),
      callsOf pre = [] → callsOf deferred = [] →
      ((updateParents env args d c0 pre deferred).calls = []
          ∧ (updateParents env args d c0 pre deferred).ending ≠ .nil)
        ∨ ∃ c p, (updateParents env args d c0 pre deferred).calls = [(c, p)] := by
    intro d c0 pre deferred hpre hdef
    have h0 : callsOf [Event.filesGet args.Id] = [] := rfl
    by_cases hP : args.Parents = []
    · right
      rw [updateParents_none env args d c0 pre deferred hP, updateDo_calls, hpre, hdef]
      exact ⟨_, _, rfl⟩
    · cases hget : env.filesGet args.Id with
      | error e =>
        left
        rw [updateParents_fetch_error env args d c0 pre deferred e hP hget]
        refine ⟨?_, by simp⟩
        simp only [Outcome.calls, callsOf_append, hpre, hdef, h0, List.append_nil]
      | ok prev =>
        right
        rw [updateParents_fetch_ok env args d c0 pre deferred prev hP hget, updateDo_calls,
          callsOf_append, hpre, hdef, h0]
        exact ⟨_, _, rfl⟩
  by_cases hp : args.Path = ""
  · rw [Update_no_path env args hp]
    exact key _ _ [] [] rfl rfl
  · cases hopen : env.openFile args.Path with
    | error e =>
      left
      rw [Update_open_error env args e hp hopen]
      exact ⟨rfl, by simp⟩
    | ok info =>
      cases hmedia : env.mediaReturns ⟨args.Path, info.size, args.Timeout, args.ChunkSize⟩
      · left
        rw [Update_media_panic env args info hp hopen hmedia]
        exact ⟨rfl, by simp⟩
      · rw [Update_open_ok env args info hp hopen hmedia]
        exact key _ _ _ _ rfl rfl

/-! ## The payload: claim C4 -/

/-- C4 fails as stated: without a content path, a caller who gives the name
`new.txt` and the MIME type `text/plain` gets an update call whose payload has
an empty name and an empty MIME type (only the description is carried). -/
theorem payload_without_path_drops_name_and_mime :
    (Update (okEnv [] {})
        { Id := "f", Name := "new.txt", Mime := "text/plain", Description := "d" }).calls
      = [(filesUpdateCall "f", { Description := "d" })]
    ∧ ({ Description := "d" } : File).Name ≠ "new.txt"
    ∧ ({ Description := "d" } : File).MimeType ≠ "text/plain" := by
  decide

/-- C4 as amended: the payload of every update call that `Update` issues has
the description of the arguments; when a content path is given it has the
name of the arguments if that is non-empty, and the MIME type of the
arguments if that is non-empty. -/
theorem payload_carries_metadata (env : Env) (args : UpdateArgs) (c : Call) (p : File)
    (hcall : (c, p) ∈ (Update env args).calls) :
    p.Description = args.Description ∧
    (args.Path ≠ "" →
      (args.Name ≠ "" → p.Name = args.Name) ∧ (args.Mime ≠ "" → p.MimeType = args.Mime)) := by
  obtain ⟨hd, hpath, _⟩ := Update_reaches env args c p hcall
  exact ⟨hd, fun hp => ⟨(hpath hp).1, (hpath hp).2.1⟩⟩

/-- Witness of the amended C4: an update with the path `report.txt`, the name
`new.txt`, the MIME type `text/plain` and the description `d`. -/
theorem payload_carries_metadata_witness :
    (({ filesUpdateCall "f" with media := some ⟨"report.txt", 50, 0, 0⟩ },
        { Name := "new.txt", MimeType := "text/plain", Description := "d" }) : Call × File)
      ∈ (Update (okEnv [] {})
          { Id := "f", Path := "report.txt", Name := "new.txt", Mime := "text/plain",
            Description := "d" }).calls
    ∧ ({ Name := "new.txt", MimeType := "text/plain", Description := "d" } : File).Description
        = "d"
    ∧ ("report.txt" ≠ "" →
        ("new.txt" ≠ "" →
          ({ Name := "new.txt", MimeType := "text/plain", Description := "d" } : File).Name
            = "new.txt")
        ∧ ("text/plain" ≠ "" →
          ({ Name := "new.txt", MimeType := "text/plain", Description := "d" } : File).MimeType
            = "text/plain")) :=
  ⟨by decide,
    payload_carries_metadata (okEnv [] {})
      { Id := "f", Path := "report.txt", Name := "new.txt", Mime := "text/plain",
        Description := "d" }
      { filesUpdateCall "f" with media := some ⟨"report.txt", 50, 0, 0⟩ }
      { Name := "new.txt", MimeType := "text/plain", Description := "d" } (by decide)⟩

/-! ## Failure of the update call: claims C5, C6 -/

/-- C5: when the update call that `Update` issues returns an error, `Update`
returns an error and writes neither a move notice nor a completion notice;
for a timeout error the message is the timeout message with the rendering of
`args.Timeout`, otherwise it is `Failed to upload file: ` followed by the
text of the cause. -/
theorem call_failure_message (env : Env) (args : UpdateArgs) (c : Call) (p : File)
    (e : GoError) (hcall : (c, p) ∈ (Update env args).calls)
    (hfail : (env.callDo c p).result = .error e) :
    (∃ msg, (Update env args).ending = .error msg) ∧
    (env.isTimeoutError e = true →
      (Update env args).ending
        = .error ("Failed to upload file: timeout, no data was transferred for "
            ++ env.durationString args.Timeout)) ∧
    (env.isTimeoutError e = false →
      (Update env args).ending = .error ("Failed to upload file: " ++ e.text)) ∧
    (∀ f, moveNotice env f ∉ (Update env args).written) ∧
    (∀ f, updatedNotice env f ∉ (Update env args).written) := by
  obtain ⟨herr, hw⟩ := Update_of_call_error env args c p e hcall hfail
  refine ⟨⟨_, herr⟩, ?_, ?_, ?_, ?_⟩
  · intro ht; rw [herr]; simp [uploadFailure, ht]
  · intro ht; rw [herr]; simp [uploadFailure, ht]
  · intro f; rw [hw]; exact (no_notice_before_call env args f).1
  · intro f; rw [hw]; exact (no_notice_before_call env args f).2

/-- Witness of C5: an upload of `big.bin` with parents requested whose update
call fails with a timeout error. -/
theorem call_failure_message_witness :
    (∃ msg, (Update (failEnv ["B"] 0 ⟨"context canceled", 1⟩)
        { Id := "f", Path := "big.bin", Parents := ["A"], Timeout := 2000000000 }).ending
      = .error msg) ∧
    ((failEnv ["B"] 0 ⟨"context canceled", 1⟩).isTimeoutError ⟨"context canceled", 1⟩ = true →
      (Update (failEnv ["B"] 0 ⟨"context canceled", 1⟩)
          { Id := "f", Path := "big.bin", Parents := ["A"], Timeout := 2000000000 }).ending
        = .error ("Failed to upload file: timeout, no data was transferred for "
            ++ (failEnv ["B"] 0 ⟨"context canceled", 1⟩).durationString 2000000000)) ∧
    ((failEnv ["B"] 0 ⟨"context canceled", 1⟩).isTimeoutError ⟨"context canceled", 1⟩ = false →
      (Update (failEnv ["B"] 0 ⟨"context canceled", 1⟩)
          { Id := "f", Path := "big.bin", Parents := ["A"], Timeout := 2000000000 }).ending
        = .error ("Failed to upload file: " ++ "context canceled")) ∧
    (∀ f, moveNotice (failEnv ["B"] 0 ⟨"context canceled", 1⟩) f
      ∉ (Update (failEnv ["B"] 0 ⟨"context canceled", 1⟩)
          { Id := "f", Path := "big.bin", Parents := ["A"], Timeout := 2000000000 }).written) ∧
    (∀ f, updatedNotice (failEnv ["B"] 0 ⟨"context canceled", 1⟩) f
      ∉ (Update (failEnv ["B"] 0 ⟨"context canceled", 1⟩)
          { Id := "f", Path := "big.bin", Parents := ["A"], Timeout := 2000000000 }).written) :=
  call_failure_message (failEnv ["B"] 0 ⟨"context canceled", 1⟩)
    { Id := "f", Path := "big.bin", Parents := ["A"], Timeout := 2000000000 }
    { filesUpdateCall "f" with
      media := some ⟨"big.bin", 50, 2000000000, 0⟩,
      removeParents := some "B", addParents := some "A" }
    { Name := "report.txt", MimeType := "text/plain" }
    ⟨"context canceled", 1⟩ (by decide) rfl

/-- C6 fails as stated: an update call that times out on the first read (no
byte transferred) and one that times out after 4096 bytes, with the same
`args.Timeout`, give the same error message; it does not say whether bytes
were transferred. -/
theorem timeout_message_ignores_bytes_transferred :
    ((failEnv [] 0 ⟨"context canceled", 1⟩).callDo
        { filesUpdateCall "f" with media := some ⟨"big.bin", 50, 2000000000, 0⟩ }
        { Name := "report.txt", MimeType := "text/plain" }).bytesTransferred = 0
    ∧ ((failEnv [] 4096 ⟨"context canceled", 1⟩).callDo
        { filesUpdateCall "f" with media := some ⟨"big.bin", 50, 2000000000, 0⟩ }
        { Name := "report.txt", MimeType := "text/plain" }).bytesTransferred = 4096
    ∧ (Update (failEnv [] 0 ⟨"context canceled", 1⟩)
        { Id := "f", Path := "big.bin", Timeout := 2000000000 }).calls
      = [({ filesUpdateCall "f" with media := some ⟨"big.bin", 50, 2000000000, 0⟩ },
          { Name := "report.txt", MimeType := "text/plain" })]
    ∧ (Update (failEnv [] 4096 ⟨"context canceled", 1⟩)
        { Id := "f", Path := "big.bin", Timeout := 2000000000 }).calls
      = [({ filesUpdateCall "f" with media := some ⟨"big.bin", 50, 2000000000, 0⟩ },
          { Name := "report.txt", MimeType := "text/plain" })]
    ∧ (Update (failEnv [] 0 ⟨"context canceled", 1⟩)
        { Id := "f", Path := "big.bin", Timeout := 2000000000 }).ending
      = .error "Failed to upload file: timeout, no data was transferred for 2s"
    ∧ (Update (failEnv [] 4096 ⟨"context canceled", 1⟩)
        { Id := "f", Path := "big.bin", Timeout := 2000000000 }).ending
      = .error "Failed to upload file: timeout, no data was transferred for 2s" := by
  decide

/-- C6 as amended: every update call that fails with a timeout makes `Update`
return the timeout message with the rendering of `args.Timeout`; two such
runs with the same `args.Timeout` return the same message, whatever number of
bytes each had transferred. -/
theorem timeout_message_same (env env' : Env) (args args' : UpdateArgs) (c c' : Call)
    (p p' : File) (e e' : GoError)
    (hcall : (c, p) ∈ (Update env args).calls)
    (hfail : (env.callDo c p).result = .error e)
    (htime : env.isTimeoutError e = true)
    (hcall' : (c', p') ∈ (Update env' args').calls)
    (hfail' : (env'.callDo c' p').result = .error e')
    (htime' : env'.isTimeoutError e' = true)
    (hT : args.Timeout = args'.Timeout)
    (hD : env.durationString = env'.durationString) :
    (Update env args).ending
      = .error ("Failed to upload file: timeout, no data was transferred for "
          ++ env.durationString args.Timeout) ∧
    (Update env' args').ending = (Update env args).ending := by
  obtain ⟨herr, _⟩ := Update_of_call_error env args c p e hcall hfail
  obtain ⟨herr', _⟩ := Update_of_call_error env' args' c' p' e' hcall' hfail'
  rw [herr, herr']
  simp [uploadFailure, htime, htime', hT, hD]

/-- Witness of the amended C6: a timeout with no byte transferred and one
after 4096 bytes. -/
theorem timeout_message_same_witness :
    (Update (failEnv [] 0 ⟨"context canceled", 1⟩)
        { Id := "f", Path := "big.bin", Timeout := 2000000000 }).ending
      = .error ("Failed to upload file: timeout, no data was transferred for "
          ++ (failEnv [] 0 ⟨"context canceled", 1⟩).durationString 2000000000) ∧
    (Update (failEnv [] 4096 ⟨"context canceled", 1⟩)
        { Id := "f", Path := "big.bin", Timeout := 2000000000 }).ending
      = (Update (failEnv [] 0 ⟨"context canceled", 1⟩)
          { Id := "f", Path := "big.bin", Timeout := 2000000000 }).ending :=
  timeout_message_same (failEnv [] 0 ⟨"context canceled", 1⟩)
    (failEnv [] 4096 ⟨"context canceled", 1⟩)
    { Id := "f", Path := "big.bin", Timeout := 2000000000 }
    { Id := "f", Path := "big.bin", Timeout := 2000000000 }
    { filesUpdateCall "f" with media := some ⟨"big.bin", 50, 2000000000, 0⟩ }
    { filesUpdateCall "f" with media := some ⟨"big.bin", 50, 2000000000, 0⟩ }
    { Name := "report.txt", MimeType := "text/plain" }
    { Name := "report.txt", MimeType := "text/plain" }
    ⟨"context canceled", 1⟩ ⟨"context canceled", 1⟩
    (by decide) rfl (by decide) (by decide) rfl (by decide) rfl rfl

/-! ## Early returns: claim C7 -/

/-- C7: when a path is given and opening the file fails, `Update` returns
`Failed to open file: ` followed by the cause after the open alone, with no
remote call; when parents are requested, the run reaches the parent fetch
(with a path: the file opens and `Media` returns) and the fetch fails,
`Update` returns `Failed to get file's parent: ` followed by the cause, the
parent fetch is the only remote call and no update call is issued. -/
theorem early_returns (env : Env) (args : UpdateArgs) (e : GoError) :
    (args.Path ≠ "" → env.openFile args.Path = .error e →
      Update env args
        = { trace := [Event.openFile args.Path],
            ending := .error ("Failed to open file: " ++ e.text) }
      ∧ (Update env args).remoteCalls = []) ∧
    (args.Parents ≠ [] →
      (args.Path ≠ "" → ∃ info, env.openFile args.Path = .ok info
        ∧ env.mediaReturns ⟨args.Path, info.size, args.Timeout, args.ChunkSize⟩ = true) →
      env.filesGet args.Id = .error e →
      Update env args
        = { trace :=
              (if args.Path ≠ "" then
                [Event.openFile args.Path, Event.out (uploadingNotice args.Path)] else [])
              ++ [Event.filesGet args.Id]
              ++ (if args.Path ≠ "" then [Event.closeFile args.Path] else []),
            ending := .error ("Failed to get file's parent: " ++ e.text) }
      ∧ (Update env args).remoteCalls = [Event.filesGet args.Id]
      ∧ (Update env args).calls = []) := by
  constructor
  · intro hp hopen
    rw [Update_open_error env args e hp hopen]
    exact ⟨rfl, rfl⟩
  · intro hP hopen hget
    by_cases hp : args.Path = ""
    · rw [Update_no_path env args hp, updateParents_fetch_error env args _ _ [] [] e hP hget]
      simp [hp, Outcome.remoteCalls, remoteOf, Event.isRemote, Outcome.calls, callsOf]
    · obtain ⟨info, hinfo, hmedia⟩ := hopen hp
      rw [Update_open_ok env args info hp hinfo hmedia,
        updateParents_fetch_error env args _ _ _ _ e hP hget]
      simp [hp, Outcome.remoteCalls, remoteOf, Event.isRemote, Outcome.calls, callsOf]

/-- Witness of C7: the file `missing.bin` does not open; and the file
`report.txt` opens but the parent fetch fails. -/
theorem early_returns_witness :
    (Update (noFileEnv ⟨"no such file", 2⟩)
          { Id := "f", Path := "missing.bin", Parents := ["A"] }
        = { trace := [Event.openFile "missing.bin"],
            ending := .error ("Failed to open file: " ++ "no such file") }
      ∧ (Update (noFileEnv ⟨"no such file", 2⟩)
          { Id := "f", Path := "missing.bin", Parents := ["A"] }).remoteCalls = []) ∧
    (Update (noFetchEnv ⟨"file not found", 3⟩)
          { Id := "f", Path := "report.txt", Parents := ["A"] }
        = { trace :=
              (if "report.txt" ≠ "" then
                [Event.openFile "report.txt", Event.out (uploadingNotice "report.txt")]
              else [])
              ++ [Event.filesGet "f"]
              ++ (if "report.txt" ≠ "" then [Event.closeFile "report.txt"] else []),
            ending := .error ("Failed to get file's parent: " ++ "file not found") }
      ∧ (Update (noFetchEnv ⟨"file not found", 3⟩)
          { Id := "f", Path := "report.txt", Parents := ["A"] }).remoteCalls
        = [Event.filesGet "f"]
      ∧ (Update (noFetchEnv ⟨"file not found", 3⟩)
          { Id := "f", Path := "report.txt", Parents := ["A"] }).calls = []) :=
  ⟨(early_returns (noFileEnv ⟨"no such file", 2⟩)
      { Id := "f", Path := "missing.bin", Parents := ["A"] } ⟨"no such file", 2⟩).1
      (by decide) rfl,
    (early_returns (noFetchEnv ⟨"file not found", 3⟩)
      { Id := "f", Path := "report.txt", Parents := ["A"] } ⟨"file not found", 3⟩).2
      (by decide) (fun _ => ⟨⟨"report.txt", 50⟩, rfl, by decide⟩) rfl⟩

/-! ## Reporting on success: claims C8, C9 -/

/-- C8 fails as stated: with desired parent `A` and current parent `A` the
delta is empty and the update call carries no remove/add instruction, the
call succeeds, and the move notice is written all the same. -/
theorem move_notice_with_empty_delta :
    parentsLoop ["A"] ["A"] 0 = [] ∧ parentsLoop ["A"] ["A"] 1 = []
    ∧ (Update (okEnv ["A"] { Id := "f", Parents := ["A"] })
        { Id := "f", Parents := ["A"] }).calls = [(filesUpdateCall "f", {})]
    ∧ (filesUpdateCall "f").removeParents = none ∧ (filesUpdateCall "f").addParents = none
    ∧ (Update (okEnv ["A"] { Id := "f", Parents := ["A"] })
        { Id := "f", Parents := ["A"] }).ending = .nil
    ∧ moveNotice (okEnv ["A"] { Id := "f", Parents := ["A"] }) { Id := "f", Parents := ["A"] }
        ∈ (Update (okEnv ["A"] { Id := "f", Parents := ["A"] })
            { Id := "f", Parents := ["A"] }).written
    ∧ moveNotice (okEnv ["A"] { Id := "f", Parents := ["A"] }) { Id := "f", Parents := ["A"] }
        = "Move f under new parent A\n" := by
  decide

/-- C8 as amended: in every successful run of `Update` there is one update
call, returning a file `f`, and the move notice for `f` is written if and
only if `args.Parents` is non-empty, whether or not the delta is empty; no
move notice at all is written when `args.Parents` is empty, and the notice is
written whenever the call carries a remove/add instruction. -/
theorem move_notice_iff_parents_requested (env : Env) (args : UpdateArgs)
    (hok : (Update env args).ending = .nil) :
    ∃ c p f, (Update env args).calls = [(c, p)] ∧ (env.callDo c p).result = .ok f ∧
      (moveNotice env f ∈ (Update env args).written ↔ args.Parents ≠ []) ∧
      (args.Parents = [] → ∀ g, moveNotice env g ∉ (Update env args).written) ∧
      ((c.removeParents ≠ none ∨ c.addParents ≠ none) →
        moveNotice env f ∈ (Update env args).written) := by
  rcases Update_early_or_call env args with ⟨_, hne⟩ | ⟨c, p, hc⟩
  · exact absurd hok hne
  · have hmem : (c, p) ∈ (Update env args).calls := by rw [hc]; simp
    cases hres : (env.callDo c p).result with
    | error e =>
      have herr := (Update_of_call_error env args c p e hmem hres).1
      rw [herr] at hok
      exact absurd hok (by simp)
    | ok f =>
      have hw := (Update_of_call_ok env args c p f hmem hres).2
      obtain ⟨_, _, _, hnone, _⟩ := Update_reaches env args c p hmem
      have hyes : args.Parents ≠ [] → moveNotice env f ∈ (Update env args).written := by
        intro hP
        have hl : args.Parents.length > 0 := List.length_pos.mpr hP
        rw [hw]
        simp [hl]
      have hno : args.Parents = [] → ∀ g, moveNotice env g ∉ (Update env args).written := by
        intro hP g
        rw [hw]
        by_cases hp : args.Path = ""
        · simp [hP, hp]
        · simp only [hP, List.length_nil, gt_iff_lt, lt_self_iff_false, if_false, ne_eq, hp,
            not_false_eq_true, if_true, List.append_nil, List.singleton_append,
            List.mem_cons, List.mem_singleton, List.not_mem_nil, or_false, not_or]
          exact ⟨moveNotice_ne_uploadingNotice env g _, moveNotice_ne_updatedNotice env g f⟩
      refine ⟨c, p, f, hc, hres, ⟨?_, hyes⟩, hno, ?_⟩
      · intro hin
        intro hP
        exact hno hP f hin
      · intro hattached
        apply hyes
        intro hP
        obtain ⟨h1, h2⟩ := hnone hP
        rcases hattached with h | h
        · exact h h1
        · exact h h2

/-- Witness of the amended C8: a successful run with desired parent `A` and
current parent `A`. -/
theorem move_notice_iff_parents_requested_witness :
    ∃ c p f,
      (Update (okEnv ["A"] { Id := "f", Parents := ["A"] })
        { Id := "f", Parents := ["A"] }).calls = [(c, p)]
      ∧ ((okEnv ["A"] { Id := "f", Parents := ["A"] }).callDo c p).result = .ok f
      ∧ (moveNotice (okEnv ["A"] { Id := "f", Parents := ["A"] }) f
          ∈ (Update (okEnv ["A"] { Id := "f", Parents := ["A"] })
              { Id := "f", Parents := ["A"] }).written ↔ (["A"] : List String) ≠ [])
      ∧ ((["A"] : List String) = [] →
          ∀ g, moveNotice (okEnv ["A"] { Id := "f", Parents := ["A"] }) g
            ∉ (Update (okEnv ["A"] { Id := "f", Parents := ["A"] })
                { Id := "f", Parents := ["A"] }).written)
      ∧ ((c.removeParents ≠ none ∨ c.addParents ≠ none) →
          moveNotice (okEnv ["A"] { Id := "f", Parents := ["A"] }) f
            ∈ (Update (okEnv ["A"] { Id := "f", Parents := ["A"] })
                { Id := "f", Parents := ["A"] }).written) :=
  move_notice_iff_parents_requested (okEnv ["A"] { Id := "f", Parents := ["A"] })
    { Id := "f", Parents := ["A"] } (by decide)

/-- C9: with an empty path and no parents, `Update` issues exactly one remote
call, the update call; its payload has the description of the arguments and
an empty name and MIME type, it carries no content stream and no parent
instruction, no parent fetch is made, the trace holds nothing else, and when
the call succeeds nothing is written and nil is returned. -/
theorem description_only_update (env : Env) (args : UpdateArgs)
    (hpath : args.Path = "") (hparents : args.Parents = []) :
    (Update env args).trace
      = [Event.filesUpdate (filesUpdateCall args.Id) { Description := args.Description }] ∧
    (Update env args).remoteCalls
      = [Event.filesUpdate (filesUpdateCall args.Id) { Description := args.Description }] ∧
    ({ Description := args.Description } : File).Name = "" ∧
    ({ Description := args.Description } : File).MimeType = "" ∧
    ({ Description := args.Description } : File).Description = args.Description ∧
    (filesUpdateCall args.Id).media = none ∧
    (filesUpdateCall args.Id).removeParents = none ∧
    (filesUpdateCall args.Id).addParents = none ∧
    Event.filesGet args.Id ∉ (Update env args).trace ∧
    (∀ f, (env.callDo (filesUpdateCall args.Id) { Description := args.Description }).result
        = .ok f →
      (Update env args).written = [] ∧ (Update env args).ending = .nil) := by
  have htrace : (Update env args).trace
      = [Event.filesUpdate (filesUpdateCall args.Id) { Description := args.Description }] := by
    rw [Update_no_path env args hpath, updateParents_none env args _ _ [] [] hparents]
    cases hres : (env.callDo (filesUpdateCall args.Id)
        { Description := args.Description }).result with
    | error e => rw [updateDo_error env args _ _ [] [] e hres]; rfl
    | ok f => rw [updateDo_ok env args _ _ [] [] f hres]; simp [hpath, hparents]
  refine ⟨htrace, ?_, rfl, rfl, rfl, rfl, rfl, rfl, ?_, ?_⟩
  · simp [Outcome.remoteCalls, htrace, remoteOf, Event.isRemote]
  · rw [htrace]; simp
  · intro f hres
    refine ⟨by simp [Outcome.written, htrace, writtenOf], ?_⟩
    rw [Update_no_path env args hpath, updateParents_none env args _ _ [] [] hparents,
      updateDo_ok env args _ _ [] [] f hres]

/-- Witness of C9: an update of the description alone. -/
theorem description_only_update_witness :
    (Update (okEnv [] { Id := "f" }) { Id := "f", Description := "d" }).trace
      = [Event.filesUpdate (filesUpdateCall "f") { Description := "d" }] ∧
    (Update (okEnv [] { Id := "f" }) { Id := "f", Description := "d" }).remoteCalls
      = [Event.filesUpdate (filesUpdateCall "f") { Description := "d" }] ∧
    ({ Description := "d" } : File).Name = "" ∧
    ({ Description := "d" } : File).MimeType = "" ∧
    ({ Description := "d" } : File).Description = "d" ∧
    (filesUpdateCall "f").media = none ∧
    (filesUpdateCall "f").removeParents = none ∧
    (filesUpdateCall "f").addParents = none ∧
    Event.filesGet "f"
      ∉ (Update (okEnv [] { Id := "f" }) { Id := "f", Description := "d" }).trace ∧
    (∀ f, ((okEnv [] { Id := "f" }).callDo (filesUpdateCall "f")
        { Description := "d" }).result = .ok f →
      (Update (okEnv [] { Id := "f" }) { Id := "f", Description := "d" }).written = []
        ∧ (Update (okEnv [] { Id := "f" }) { Id := "f", Description := "d" }).ending = .nil) :=
  description_only_update (okEnv [] { Id := "f" }) { Id := "f", Description := "d" } rfl rfl

end Drive
